import Mathlib

/-!
Verification development for the RapidRTMP ingest-to-segment pipeline.

The Go source is shallowly embedded: bytes are `Nat` (masked with `% 256`
or bitwise `&&&` exactly where the source masks machine integers), byte
buffers are `List Nat`, fallible functions return `Except String`, and the
stateful segmenter / auth manager / registry are explicit state-passing
step functions.  Each definition mirrors one Go function and keeps its
name.  Definitions marked `specXxx` are instead transcribed from the
natural-language specification, for refinement comparison.
-/

namespace RapidRTMP

/-! ## Byte helpers -/

/-- Big-endian unsigned integer of a byte list (Go `binary.BigEndian.Uint32`
when applied to 4 bytes).  Each byte is masked to 8 bits. -/
def be (bs : List Nat) : Nat :=
  bs.foldl (fun acc b => acc * 256 + b % 256) 0

/-- NAL unit type: lower 5 bits of the first byte (Go `nalUnit[0] & 0x1F`). -/
def nalTypeOf (nal : List Nat) : Nat :=
  (nal.headD 0) % 256 &&& 31

/-! ## muxer.ConvertAVCCToAnnexB (internal/muxer, `h264.go`)

The Go loop walks `avccData` with an offset; each iteration consumes the
4-byte length prefix plus the NAL unit, so the fuel `avccData.length`
always suffices (an iteration consumes at least 4 bytes). -/

/-- Loop body of `ConvertAVCCToAnnexB`: returns the produced Annex-B bytes
together with the number of NAL units emitted (`nalCount`).  Faithful to
the Go loop: breaks when fewer than 4 bytes remain, skips a zero length,
errors when a declared length overruns the buffer, and chooses a 4-byte
start code for SPS/PPS/IDR (types 7, 8, 5) and a 3-byte one otherwise. -/
def convertLoop : Nat → List Nat → Except String (List Nat × Nat)
  | 0, _ => .ok ([], 0)
  | fuel + 1, rest =>
    if rest.length < 4 then .ok ([], 0)
    else
      let nalSize := be (rest.take 4)
      let after := rest.drop 4
      if nalSize = 0 then convertLoop fuel after
      else if after.length < nalSize then .error "invalid NAL size (exceeds buffer)"
      else
        let nalUnit := after.take nalSize
        let sc : List Nat :=
          if nalTypeOf nalUnit = 7 ∨ nalTypeOf nalUnit = 8 ∨ nalTypeOf nalUnit = 5 then
            [0, 0, 0, 1]
          else [0, 0, 1]
        match convertLoop fuel (after.drop nalSize) with
        | .error e => .error e
        | .ok (out, c) => .ok (sc ++ nalUnit ++ out, c + 1)

/-- Go `ConvertAVCCToAnnexB`: empty input and zero emitted NAL units are
errors; otherwise the concatenation produced by the loop. -/
def convertAVCCToAnnexB (avccData : List Nat) : Except String (List Nat) :=
  if avccData.length = 0 then .error "empty AVCC data"
  else
    match convertLoop avccData.length avccData with
    | .error e => .error e
    | .ok (out, c) => if c = 0 then .error "no NAL units found in AVCC data" else .ok out

/-- Go `ConvertAVCCFrameToAnnexB`: despite receiving the recorded NAL length
size, both branches call `ConvertAVCCToAnnexB` (the non-4 branch only logs a
warning before falling through). -/
def convertAVCCFrameToAnnexB (frameData : List Nat) (naluLength : Nat) :
    Except String (List Nat) :=
  if naluLength ≠ 4 then convertAVCCToAnnexB frameData
  else convertAVCCToAnnexB frameData

/-- Modelled from the spec (§4.2 AVCC → Annex-B): iterate `length =
bigEndianUint(L bytes); nal = next length bytes` where `L` is the recorded
NAL-length-size; emit a 4-byte start code `00 00 00 01` before every NAL
unit; skip zero-length NALs; fail on overrun.  The loop stops when fewer
than `L` bytes remain. -/
def specConvertLoop (L : Nat) : Nat → List Nat → Except String (List Nat)
  | 0, _ => .ok []
  | fuel + 1, rest =>
    if rest.length < L then .ok []
    else
      let nalSize := be (rest.take L)
      let after := rest.drop L
      if nalSize = 0 then specConvertLoop L fuel after
      else if after.length < nalSize then .error "truncated-nalu"
      else
        match specConvertLoop L fuel (after.drop nalSize) with
        | .error e => .error e
        | .ok out => .ok ([0, 0, 0, 1] ++ after.take nalSize ++ out)

/-- Modelled from the spec: wrapper running the spec's conversion loop. -/
def specConvertAVCCToAnnexB (L : Nat) (avccData : List Nat) : Except String (List Nat) :=
  specConvertLoop L avccData.length avccData

/-! ## muxer.ParseFLVVideoPacket (internal/muxer, `flv.go`) -/

/-- Go `ParseFLVVideoPacket`: returns `(isSequenceHeader, isKeyFrame, avcData)`.
A packet shorter than 5 bytes is an error; a codec id other than 7 (AVC) is
an error; otherwise the header is consumed and the AVC payload (possibly
empty) is returned. -/
def parseFLVVideoPacket (data : List Nat) :
    Except String (Bool × Bool × List Nat) :=
  if data.length < 5 then .error "video packet too short"
  else
    let b0 := data.headD 0 % 256
    let frameType := b0 >>> 4 &&& 15
    let codecID := b0 &&& 15
    if codecID ≠ 7 then .error "not H.264/AVC codec"
    else
      let avcPacketType := data.getD 1 0 % 256
      .ok (avcPacketType = 0, frameType = 1, data.drop 5)

/-! ## muxer.ParseAVCDecoderConfigurationRecord (internal/muxer, `avc.go`)

The Go parser reads sequentially from a `bytes.Reader`; the reader is
modelled as the remaining byte list.  `bytes.Reader.Read` called with a
buffer of `n` bytes fails the Go-side check `err != nil || n != length`
exactly when fewer than `n` bytes remain, or when `n = 0` and the reader is
already exhausted (it reports `io.EOF` before looking at the buffer size). -/

/-- One byte from the reader (Go `binary.Read` of a `uint8`). -/
def readU8 : List Nat → Except String (Nat × List Nat)
  | [] => .error "unexpected EOF"
  | b :: rest => .ok (b % 256, rest)

/-- Two big-endian bytes (Go `binary.Read` of a `uint16`). -/
def readU16 : List Nat → Except String (Nat × List Nat)
  | b1 :: b2 :: rest => .ok ((b1 % 256) * 256 + b2 % 256, rest)
  | _ => .error "unexpected EOF"

/-- Reads `n` raw bytes (Go `r.Read(buf)` followed by the `n != length` check). -/
def readBytes (n : Nat) (l : List Nat) : Except String (List Nat × List Nat) :=
  if l.length < max n 1 then .error "short read"
  else .ok (l.take n, l.drop n)

/-- Reads `count` length-prefixed parameter sets (the SPS and PPS loops). -/
def readParamSets : Nat → List Nat → Except String (List (List Nat) × List Nat)
  | 0, l => .ok ([], l)
  | count + 1, l => do
    let (len, l1) ← readU16 l
    let (ps, l2) ← readBytes len l1
    let (rest, l3) ← readParamSets count l2
    .ok (ps :: rest, l3)

/-- Mirror of the Go `AVCDecoderConfigurationRecord` struct. -/
structure AVCDecoderConfigurationRecord where
  configurationVersion : Nat
  avcProfileIndication : Nat
  profileCompatibility : Nat
  avcLevelIndication : Nat
  nalUnitLength : Nat
  sps : List (List Nat)
  pps : List (List Nat)
  deriving Repr, DecidableEq

/-- Go `ParseAVCDecoderConfigurationRecord`: rejects inputs shorter than 11
bytes, then reads version, profile, compatibility, level, the
`lengthSizeMinusOne` byte (masked to its low 2 bits, plus one), the SPS
count (masked to 5 bits) with its parameter sets, and the PPS count
(unmasked) with its parameter sets.  Trailing bytes are ignored. -/
def parseAVCDecoderConfigurationRecord (data : List Nat) :
    Except String AVCDecoderConfigurationRecord := do
  if data.length < 11 then .error "data too short for AVCDecoderConfigurationRecord"
  else
    let (ver, l1) ← readU8 data
    let (prof, l2) ← readU8 l1
    let (compat, l3) ← readU8 l2
    let (level, l4) ← readU8 l3
    let (lengthSizeMinusOne, l5) ← readU8 l4
    let (numSPSraw, l6) ← readU8 l5
    let (sps, l7) ← readParamSets (numSPSraw &&& 31) l6
    let (numPPS, l8) ← readU8 l7
    let (pps, _) ← readParamSets numPPS l8
    .ok { configurationVersion := ver
          avcProfileIndication := prof
          profileCompatibility := compat
          avcLevelIndication := level
          nalUnitLength := (lengthSizeMinusOne &&& 3) + 1
          sps := sps
          pps := pps }

/-! ## muxer.PrependSPSPPSAnnexB (internal/muxer, `flv.go`) -/

/-- Go `PrependSPSPPSAnnexB`: each SPS then each PPS, each prefixed with a
4-byte start code, followed by the frame data. -/
def prependSPSPPSAnnexB (frameData : List Nat) (sps pps : List (List Nat)) : List Nat :=
  (sps.flatMap (fun s => [0, 0, 0, 1] ++ s)) ++
  (pps.flatMap (fun p => [0, 0, 0, 1] ++ p)) ++ frameData

/-! ## pkg/models.Frame -/

/-- Mirror of Go `models.Frame`. -/
structure Frame where
  streamKey : String
  isVideo : Bool
  timestamp : Nat
  payload : List Nat
  codec : String
  isKeyFrame : Bool
  deriving Repr, DecidableEq, Inhabited

/-! ## internal/auth (Manager, models.PublishToken)

Wall-clock time is passed explicitly: `now` is the value of `time.Now()`
at the moment `IsValid` runs. -/

/-- Mirror of Go `models.PublishToken` (the fields `ValidateToken` reads). -/
structure PublishToken where
  streamKey : String
  expiresAt : Nat
  isUsed : Bool
  deriving Repr, DecidableEq

/-- Go `PublishToken.IsValid`: `!t.IsUsed && time.Now().Before(t.ExpiresAt)`. -/
def PublishToken.isValid (t : PublishToken) (now : Nat) : Bool :=
  !t.isUsed && decide (now < t.expiresAt)

/-- The auth `Manager.tokens` map, as an association list. -/
abbrev TokenMap := List (String × PublishToken)

/-- Association-list lookup for the token map. -/
def lookupToken : TokenMap → String → Option PublishToken
  | [], _ => none
  | (k, t) :: rest, s => if k = s then some t else lookupToken rest s

/-- Go `Manager.ValidateToken`: checks existence, validity, and stream-key
binding; performs no state change. -/
def validateToken (tokens : TokenMap) (tokenString streamKey : String) (now : Nat) :
    Except String Unit :=
  match lookupToken tokens tokenString with
  | none => .error "invalid token"
  | some t =>
    if !t.isValid now then .error "token expired or already used"
    else if t.streamKey ≠ streamKey then .error "token not valid for this stream"
    else .ok ()

/-- Go `Manager.MarkTokenUsed`: sets `IsUsed` on an existing token. -/
def markTokenUsed (tokens : TokenMap) (tokenString : String) : TokenMap :=
  tokens.map (fun kt => if kt.1 = tokenString then (kt.1, { kt.2 with isUsed := true }) else kt)

/-- One atomic operation on the auth manager.  `ValidateToken` and
`MarkTokenUsed` each hold the manager's lock for their own duration only,
so an interleaved schedule of several RTMP handlers is a sequence of these
operations in any order. -/
inductive AuthOp
  | validate (tokenString streamKey : String) (now : Nat)
  | markUsed (tokenString : String)

/-- Runs a schedule of auth operations, collecting each `validate`'s
success flag in order. -/
def runAuth : TokenMap → List AuthOp → TokenMap × List Bool
  | m, [] => (m, [])
  | m, .validate t k now :: ops =>
    let ok := match validateToken m t k now with
      | .ok _ => true
      | .error _ => false
    let (m', res) := runAuth m ops
    (m', ok :: res)
  | m, .markUsed t :: ops => runAuth (markTokenUsed m t) ops

/-! ## internal/streammanager (Manager.CreateStream, Stream.SetState) -/

/-- Mirror of Go `models.StreamState`. -/
inductive StreamState
  | idle
  | connecting
  | live
  | stopping
  | stopped
  deriving Repr, DecidableEq

/-- The registry's `streams` map (stream key to state), as an association list. -/
abbrev Registry := List (String × StreamState)

/-- Association-list lookup for the registry. -/
def lookupStream : Registry → String → Option StreamState
  | [], _ => none
  | (k, s) :: rest, key => if k = key then some s else lookupStream rest key

/-- Map-style assignment `m.streams[key] = state`: replaces an existing
entry or appends a new one. -/
def setStream : Registry → String → StreamState → Registry
  | [], key, st => [(key, st)]
  | (k, s) :: rest, key, st =>
    if k = key then (k, st) :: rest else (k, s) :: setStream rest key st

/-- Go `Manager.CreateStream`: rejects when the key is already Live,
otherwise (re)creates the stream in state Connecting. -/
def createStream (reg : Registry) (streamKey : String) : Except String Registry :=
  match lookupStream reg streamKey with
  | some .live => .error "stream is already live"
  | _ => .ok (setStream reg streamKey .connecting)

/-! ## internal/rtmp/server.go -/

/-- Go `parseStreamKeyAndToken` helper: splits at the first `?`.  Returns
`none` when the name has no `?`, else the prefix and the query tail. -/
def splitAtQuestion : List Char → Option (List Char × List Char)
  | [] => none
  | c :: rest =>
    if c = '?' then some ([], rest)
    else match splitAtQuestion rest with
      | none => none
      | some (p, q) => some (c :: p, q)

/-- Go `parseStreamKeyAndToken`: `"streamkey?token=xxx"` yields the key and
the token; a missing `?` or a query not of the form `token=<nonempty>`
yields an empty token.  The whole name is the key when no `?` occurs. -/
def parseStreamKeyAndToken (publishingName : List Char) : List Char × List Char :=
  match splitAtQuestion publishingName with
  | none => (publishingName, [])
  | some (streamKey, query) =>
    if 6 < query.length ∧ query.take 6 = "token=".data then (streamKey, query.drop 6)
    else (streamKey, [])

/-- Result of `ConnHandler.OnPublish`: whether `authManager.ValidateToken`
was consulted, and the resulting registry (or the error returned to the
RTMP peer). -/
structure PublishResult where
  tokenChecked : Bool
  outcome : Except String Registry
  deriving Repr

/-- Go `ConnHandler.OnPublish`: parses the publishing name; validates the
token only when present (an empty token logs a warning and proceeds);
creates the stream and transitions it to Live.  `validateOk token key`
abstracts `authManager.ValidateToken` succeeding. -/
def onPublish (reg : Registry) (validateOk : String → String → Bool)
    (publishingName : List Char) : PublishResult :=
  let (streamKeyChars, token) := parseStreamKeyAndToken publishingName
  let streamKey := String.mk streamKeyChars
  let proceed : Bool → PublishResult := fun checked =>
    match createStream reg streamKey with
    | .error e => ⟨checked, .error e⟩
    | .ok reg1 => ⟨checked, .ok (setStream reg1 streamKey .live)⟩
  if token ≠ [] then
    if validateOk (String.mk token) streamKey then proceed true
    else ⟨true, .error "authentication failed"⟩
  else proceed false

/-- Per-connection handler state read and written by `ConnHandler.OnVideo`. -/
structure ConnHandlerState where
  streamKey : String
  sps : List (List Nat)
  pps : List (List Nat)
  naluLength : Nat
  deriving Repr, DecidableEq

/-- Go `ConnHandler.OnVideo` (video path, stream already created): parses
the FLV tag (errors skip the packet), stores SPS/PPS from a sequence
header, otherwise converts AVCC to Annex-B — falling back to the raw AVC
payload when conversion fails — prepends SPS/PPS to keyframes when
available, and publishes the resulting frame.  Returns the updated handler
state and the frame handed to `streamManager.PublishFrame` (`none` when no
frame is published). -/
def onVideo (h : ConnHandlerState) (timestamp : Nat) (videoData : List Nat) :
    ConnHandlerState × Option Frame :=
  if videoData.length = 0 then (h, none)
  else
    match parseFLVVideoPacket videoData with
    | .error _ => (h, none)
    | .ok (isSequenceHeader, isKeyFrame, avcData) =>
      if isSequenceHeader then
        match parseAVCDecoderConfigurationRecord avcData with
        | .error _ => (h, none)
        | .ok avcConfig =>
          ({ h with sps := avcConfig.sps, pps := avcConfig.pps,
                    naluLength := avcConfig.nalUnitLength }, none)
      else
        let annexBData := match convertAVCCToAnnexB avcData with
          | .error _ => avcData
          | .ok d => d
        let frameData :=
          if isKeyFrame then
            if h.sps.length > 0 ∧ h.pps.length > 0 then
              prependSPSPPSAnnexB annexBData h.sps h.pps
            else annexBData
          else annexBData
        (h, some { streamKey := h.streamKey, isVideo := true, timestamp := timestamp,
                   payload := frameData, codec := "h264", isKeyFrame := isKeyFrame })

/-! ## internal/segmenter (PlaylistManager, SegmentBuffer)

`processFrames` is a select loop over the frame channel and the segment
ticker; its behaviour is the fold of per-event steps, where an event is an
arriving frame (`addFrame`) or a tick (`finalizeSegment`).  The outcome of
the storage write inside `finalizeSegment` is external nondeterminism and
is an input of the tick event.  Durations are in whole seconds: the only
duration the Go code ever stores is
`float64(segmenter.segmentDuration.Seconds())`, the integral configured
value (2.0 by default). -/

/-- Mirror of Go `models.Segment` (metadata record; the written bytes are
carried separately by `Produced`). -/
structure Segment where
  streamKey : String
  sequenceNum : Nat
  duration : Nat
  filePath : String
  fileSize : Nat
  deriving Repr, DecidableEq, Inhabited

/-- Mirror of Go `SegmentBuffer` (the mutex is dropped; `startTime` is
unused by the embedded operations). -/
structure SegmentBuffer where
  frames : List Frame
  hasKeyFrame : Bool
  deriving Repr, DecidableEq

/-- Go `newSegmentBuffer`. -/
def newSegmentBuffer : SegmentBuffer :=
  { frames := [], hasKeyFrame := false }

/-- Mirror of Go `PlaylistManager` (per-stream segmenter state).
`segmentDurationSec` is the segmenter's `segmentDuration` in seconds. -/
structure PlaylistManager where
  streamKey : String
  segments : List Segment
  targetDuration : Nat
  maxSegments : Nat
  sequenceNumber : Nat
  currentSegment : SegmentBuffer
  hasInit : Bool
  segmentDurationSec : Nat
  deriving Repr, DecidableEq

/-- The playlist manager created by `Segmenter.New` + `StartSegmenting`:
2-second segments, 10-segment window, sequence number 0. -/
def initialPlaylistManager (streamKey : String) : PlaylistManager :=
  { streamKey := streamKey
    segments := []
    targetDuration := 2
    maxSegments := 10
    sequenceNumber := 0
    currentSegment := newSegmentBuffer
    hasInit := false
    segmentDurationSec := 2 }

/-- Go `PlaylistManager.addFrame`: records the keyframe flag and appends. -/
def addFrame (pm : PlaylistManager) (frame : Frame) : PlaylistManager :=
  { pm with currentSegment :=
      { frames := pm.currentSegment.frames ++ [frame]
        hasKeyFrame := pm.currentSegment.hasKeyFrame || (frame.isVideo && frame.isKeyFrame) } }

/-- Go `PlaylistManager.framesToSegmentData`: plain concatenation of the
frame payloads, in buffer order. -/
def framesToSegmentData (frames : List Frame) : List Nat :=
  frames.flatMap (fun frame => frame.payload)

/-- A finalization that reached the success path: the appended `Segment`
record, the bytes written to storage, and the frames they came from. -/
structure Produced where
  seg : Segment
  data : List Nat
  frames : List Frame
  deriving Repr, DecidableEq, Inhabited

/-- Go `PlaylistManager.finalizeSegment`.  Nothing happens without frames
or without a keyframe.  Otherwise the sequence number is consumed *before*
the storage write; a failed write (`writeOk = false`) logs and returns,
keeping the buffer and appending nothing.  On success the segment record
is appended (duration = the configured segment duration in seconds), the
window slides, the init flag is set, and the buffer is reset. -/
def finalizeSegment (pm : PlaylistManager) (writeOk : Bool) :
    PlaylistManager × Option Produced :=
  let frames := pm.currentSegment.frames
  if frames.length = 0 || !pm.currentSegment.hasKeyFrame then (pm, none)
  else
    let segmentNum := pm.sequenceNumber
    let pm1 := { pm with sequenceNumber := segmentNum + 1 }
    let segmentData := framesToSegmentData frames
    if !writeOk then (pm1, none)
    else
      let seg : Segment :=
        { streamKey := pm.streamKey
          sequenceNum := segmentNum
          duration := pm.segmentDurationSec
          filePath := pm.streamKey ++ "/segment_" ++ toString segmentNum ++ ".m4s"
          fileSize := segmentData.length }
      let appended := pm1.segments ++ [seg]
      let windowed := if appended.length > pm.maxSegments then appended.drop 1 else appended
      ({ pm1 with segments := windowed, hasInit := true, currentSegment := newSegmentBuffer },
       some { seg := seg, data := segmentData, frames := frames })

/-- One event of the `processFrames` select loop. -/
inductive SegEvent
  | frame (f : Frame)
  | tick (writeOk : Bool)

/-- One iteration of `processFrames`. -/
def stepPM (pm : PlaylistManager) : SegEvent → PlaylistManager × Option Produced
  | .frame f => (addFrame pm f, none)
  | .tick writeOk => finalizeSegment pm writeOk

/-- Folds the `processFrames` loop over an event schedule, collecting
every successfully produced segment in order. -/
def runPM (pm : PlaylistManager) : List SegEvent → PlaylistManager × List Produced
  | [] => (pm, [])
  | e :: es =>
    let (pm1, p) := stepPM pm e
    let (pm2, ps) := runPM pm1 es
    (pm2, p.toList ++ ps)

/-! ## Playlist generation (Go `PlaylistManager.generatePlaylist`)

The Go function writes the playlist line by line into a buffer;
`playlistLines` is the list of lines written, and `generatePlaylist` the
resulting text. -/

/-- Go `fmt.Sprintf("%.3f", d)` for the whole-second durations the
segmenter stores. -/
def fmtDuration3 (d : Nat) : String :=
  toString d ++ ".000"

/-- The `#EXT-X-MEDIA-SEQUENCE` line: the oldest segment's sequence number,
or 0 when the window is empty. -/
def mediaSequenceLine (pm : PlaylistManager) : String :=
  match pm.segments with
  | [] => "#EXT-X-MEDIA-SEQUENCE:0"
  | s :: _ => "#EXT-X-MEDIA-SEQUENCE:" ++ toString s.sequenceNum

/-- The `#EXTINF` line for one segment (three decimal places). -/
def extinfLine (seg : Segment) : String :=
  "#EXTINF:" ++ fmtDuration3 seg.duration ++ ","

/-- The URI line for one segment. -/
def uriLine (seg : Segment) : String :=
  "segment_" ++ toString seg.sequenceNum ++ ".m4s"

/-- The lines written by `generatePlaylist`, in order. -/
def playlistLines (pm : PlaylistManager) : List String :=
  ["#EXTM3U", "#EXT-X-VERSION:7",
   "#EXT-X-TARGETDURATION:" ++ toString pm.targetDuration] ++
  [mediaSequenceLine pm] ++
  (if pm.hasInit then ["#EXT-X-MAP:URI=\"init.mp4\""] else []) ++
  pm.segments.flatMap (fun seg => [extinfLine seg, uriLine seg])

/-- Go `PlaylistManager.generatePlaylist`: the playlist text. -/
def generatePlaylist (pm : PlaylistManager) : String :=
  String.join ((playlistLines pm).map (fun l => l ++ "\n"))

/-! ## Claim-side predicates

These transcribe phrases of the specification so the claims can be stated
over the embedded code. -/

/-- Spec phrase "starts with an IDR preceded by SPS and PPS": the bytes
open with a 4-byte start code, an SPS NAL (type 7), a start code, a PPS
NAL (type 8), and a start code followed by an IDR NAL (type 5). -/
def startsWithSpsPpsIdr (bs : List Nat) : Prop :=
  ∃ sps pps rest : List Nat,
    bs = [0, 0, 0, 1] ++ sps ++ [0, 0, 0, 1] ++ pps ++ [0, 0, 0, 1] ++ rest ∧
    nalTypeOf sps = 7 ∧ nalTypeOf pps = 8 ∧ nalTypeOf rest = 5

/-- The segment buffer's keyframe flag is honest: when set, a video
keyframe is in the buffer.  Holds for every reachable segmenter state. -/
def bufferInv (pm : PlaylistManager) : Prop :=
  pm.currentSegment.hasKeyFrame = true →
    ∃ f ∈ pm.currentSegment.frames, f.isVideo = true ∧ f.isKeyFrame = true

/-- An event whose storage write (if any) succeeds. -/
def writeSucceeds : SegEvent → Prop
  | .frame _ => True
  | .tick writeOk => writeOk = true

/-- Clamp `x` into `[lo, hi]`. -/
def clampNat (lo hi x : Nat) : Nat := max lo (min hi x)

/-- Modelled from the spec (§4.5): the segment duration claimed when
timestamps are reliable, `(lastPTS − firstPTS)/1000` seconds clamped to
`[0.5·target, 2·target]`. -/
def specPtsDuration (target : Nat) (frames : List Frame) : Nat :=
  clampNat (target / 2) (2 * target)
    ((((frames.getLast?).map Frame.timestamp).getD 0 -
      ((frames.head?).map Frame.timestamp).getD 0) / 1000)

/-- Timestamps are present and monotone over the buffer: at least two
frames, and the last PTS is not before the first. -/
def ptsReliable (frames : List Frame) : Prop :=
  2 ≤ frames.length ∧
  ((frames.head?).map Frame.timestamp).getD 0 ≤
    ((frames.getLast?).map Frame.timestamp).getD 0

/-- Maximum segment duration in the playlist window (0 when empty); its
ceiling is itself since the embedded durations are whole seconds. -/
def maxWindowDuration (pm : PlaylistManager) : Nat :=
  (pm.segments.map Segment.duration).foldr max 0

/-- Checks that every NAL unit the AVCC walk visits has a key type
(SPS/PPS/IDR), i.e. one for which the Go converter also chooses the
4-byte start code.  Recursion mirrors `convertLoop`. -/
def allKeyTypeNals : Nat → List Nat → Bool
  | 0, _ => true
  | fuel + 1, rest =>
    if rest.length < 4 then true
    else
      let nalSize := be (rest.take 4)
      let after := rest.drop 4
      if nalSize = 0 then allKeyTypeNals fuel after
      else if after.length < nalSize then true
      else
        let nalUnit := after.take nalSize
        decide (nalTypeOf nalUnit = 7 ∨ nalTypeOf nalUnit = 8 ∨ nalTypeOf nalUnit = 5) &&
          allKeyTypeNals fuel (after.drop nalSize)

/-! ## Concrete fixtures used by counterexamples and witnesses -/

/-- A keyframe frame whose payload opens with a 4-byte start code. -/
def keyFrameA : Frame :=
  { streamKey := "live", isVideo := true, timestamp := 0,
    payload := [0, 0, 0, 1, 101, 136], codec := "h264", isKeyFrame := true }

/-- An inter (non-key) video frame; its payload starts with a type-1 NAL. -/
def interFrameB : Frame :=
  { streamKey := "live", isVideo := true, timestamp := 33,
    payload := [65, 1, 2], codec := "h264", isKeyFrame := false }

/-- A second keyframe, arriving after `interFrameB`. -/
def keyFrameC : Frame :=
  { streamKey := "live", isVideo := true, timestamp := 66,
    payload := [0, 0, 0, 1, 101, 137], codec := "h264", isKeyFrame := true }

/-- A late non-key frame with PTS 4000 ms. -/
def lateFrameD : Frame :=
  { streamKey := "live", isVideo := true, timestamp := 4000,
    payload := [65, 9], codec := "h264", isKeyFrame := false }

/-- A playlist-manager state holding one 5-second segment while the
configured target duration is 2 (the type `models.Segment` places no
constraint on `Duration`). -/
def pmWithLongSegment : PlaylistManager :=
  { streamKey := "live"
    segments := [{ streamKey := "live", sequenceNum := 0, duration := 5,
                   filePath := "live/segment_0.m4s", fileSize := 10 }]
    targetDuration := 2
    maxSegments := 10
    sequenceNumber := 1
    currentSegment := newSegmentBuffer
    hasInit := true
    segmentDurationSec := 2 }

/-- Fresh handler state before any sequence header. -/
def initialConnState : ConnHandlerState :=
  { streamKey := "live", sps := [], pps := [], naluLength := 0 }

/-- The segment record finalizeSegment appends on a successful write. -/
def finalizedSeg (pm : PlaylistManager) : Segment :=
  { streamKey := pm.streamKey
    sequenceNum := pm.sequenceNumber
    duration := pm.segmentDurationSec
    filePath := pm.streamKey ++ "/segment_" ++ toString pm.sequenceNumber ++ ".m4s"
    fileSize := (framesToSegmentData pm.currentSegment.frames).length }

/-! # Theorems -/

/-- Claim C2: with one valid unexpired token, the interleaving
`validate(A); validate(B); markUsed(A); markUsed(B)` — a legal schedule of
two publishers, since `ValidateToken` and `MarkTokenUsed` are separate
critical sections — lets both `validate` calls succeed, violating the
at-most-one-success property; the sequential schedule
`validate; markUsed; validate` does fail the second `validate`. -/
theorem c2_theorem :
    ((runAuth [("tok", { streamKey := "live", expiresAt := 100, isUsed := false })]
        [.validate "tok" "live" 0, .validate "tok" "live" 0,
         .markUsed "tok", .markUsed "tok"]).2 = [true, true] ∧
      2 > 1) ∧
    (runAuth [("tok", { streamKey := "live", expiresAt := 100, isUsed := false })]
        [.validate "tok" "live" 0, .markUsed "tok", .validate "tok" "live" 0]).2 =
      [true, false] :=
  ⟨⟨rfl, by decide⟩, rfl⟩

/-- Claim C9 (counterexample): a 5-byte FLV video tag (keyframe, codec 7, AVC
NALU packet) is parsed *successfully* with an empty payload, not reported
as an error. -/
theorem c9_counterexample :
    parseFLVVideoPacket [23, 1, 0, 0, 0] = .ok (false, true, []) ∧
    ¬ ∃ e, parseFLVVideoPacket [23, 1, 0, 0, 0] = .error e := by
  refine ⟨rfl, ?_⟩
  rintro ⟨e, he⟩
  rw [show parseFLVVideoPacket [23, 1, 0, 0, 0] = .ok (false, true, []) from rfl] at he
  simp at he

/-- Claim C9 (amended): `ParseFLVVideoPacket` accepts every 5-byte AVC tag,
returning an empty AVC payload; the empty-frame condition is reported only
downstream, by `ConvertAVCCToAnnexB` on the empty payload; only tags
shorter than 5 bytes are rejected by the parser itself. -/
theorem c9_theorem :
    (∀ d : List Nat, d.length = 5 → d.headD 0 % 256 &&& 15 = 7 →
      parseFLVVideoPacket d =
        .ok (decide (d.getD 1 0 % 256 = 0),
             decide ((d.headD 0 % 256) >>> 4 &&& 15 = 1), [])) ∧
    convertAVCCToAnnexB [] = .error "empty AVCC data" ∧
    (∀ d : List Nat, d.length < 5 → parseFLVVideoPacket d = .error "video packet too short") := by
  refine ⟨?_, rfl, ?_⟩
  · intro d hlen hcodec
    match d, hlen with
    | [a, b, c, e, f], _ =>
      simp only [List.headD] at hcodec
      simp [parseFLVVideoPacket, hcodec]
  · intro d hlen
    simp [parseFLVVideoPacket, hlen]

/-- Claim C9 (witness): the amended behaviour at the 5-byte tag and a 2-byte tag. -/
theorem c9_witness :
    parseFLVVideoPacket [23, 9, 0, 0, 0] = .ok (false, true, []) ∧
    parseFLVVideoPacket [23, 1] = .error "video packet too short" := by
  constructor
  · have h := c9_theorem.1 [23, 9, 0, 0, 0] (by decide) (by decide)
    simpa using h
  · exact c9_theorem.2.2 [23, 1] (by decide)

/-- Claim C4 (counterexample): an AVCDecoderConfigurationRecord declaring
`lengthSizeMinusOne = 2` — i.e. NAL-length-size 3 — is parsed successfully
with the size 3 stored, although 3 is not in {1,2,4}. -/
theorem c4_counterexample :
    parseAVCDecoderConfigurationRecord [1, 66, 0, 31, 2, 0, 0, 0, 0, 0, 0] =
      .ok { configurationVersion := 1, avcProfileIndication := 66,
            profileCompatibility := 0, avcLevelIndication := 31,
            nalUnitLength := 3, sps := [], pps := [] } ∧
    (3 : Nat) ∉ ([1, 2, 4] : List Nat) :=
  ⟨rfl, by decide⟩

/-- Claim C5 (counterexample): a video frame whose AVCC payload declares NAL
length 5 with only 4 bytes remaining is rejected by the converter, but
`OnVideo` then *forwards* the frame with the raw AVCC payload instead of
dropping it. -/
theorem c5_counterexample :
    parseFLVVideoPacket ([39, 1, 0, 0, 0] ++ [0, 0, 0, 5, 65, 0, 0, 0]) =
      .ok (false, false, [0, 0, 0, 5, 65, 0, 0, 0]) ∧
    convertAVCCToAnnexB [0, 0, 0, 5, 65, 0, 0, 0] =
      .error "invalid NAL size (exceeds buffer)" ∧
    (onVideo initialConnState 0 ([39, 1, 0, 0, 0] ++ [0, 0, 0, 5, 65, 0, 0, 0])).2 =
      some { streamKey := "live", isVideo := true, timestamp := 0,
             payload := [0, 0, 0, 5, 65, 0, 0, 0], codec := "h264", isKeyFrame := false } :=
  ⟨rfl, rfl, rfl⟩

/-- Claim C3 (counterexample): the conversion neither honours the recorded
NAL-length-size (a 2-byte-length payload valid per the spec is rejected,
because 4-byte lengths are always read) nor emits a 4-byte start code for
every NAL unit (a type-1 NAL receives the 3-byte code `00 00 01`). -/
theorem c3_counterexample :
    convertAVCCFrameToAnnexB [0, 0, 0, 2, 65, 0] 4 = .ok [0, 0, 1, 65, 0] ∧
    specConvertAVCCToAnnexB 4 [0, 0, 0, 2, 65, 0] = .ok [0, 0, 0, 1, 65, 0] ∧
    convertAVCCFrameToAnnexB [0, 2, 65, 0] 2 = .error "invalid NAL size (exceeds buffer)" ∧
    specConvertAVCCToAnnexB 2 [0, 2, 65, 0] = .ok [0, 0, 0, 1, 65, 0] :=
  ⟨rfl, rfl, rfl, rfl⟩

/-- Claim C1 (counterexample): after one finalized segment, a buffer receiving an
inter frame and then a keyframe finalizes into segment 1, whose bytes start
with the inter frame's payload — not with a start code, SPS, PPS, IDR. -/
theorem c1_counterexample :
    ((runPM (initialPlaylistManager "live")
        [.frame keyFrameA, .tick true, .frame interFrameB, .frame keyFrameC,
         .tick true]).2.map (fun p => (p.seg.sequenceNum, p.data))) =
      [(0, [0, 0, 0, 1, 101, 136]), (1, [65, 1, 2, 0, 0, 0, 1, 101, 137])] ∧
    ¬ startsWithSpsPpsIdr [65, 1, 2, 0, 0, 0, 1, 101, 137] := by
  refine ⟨rfl, ?_⟩
  rintro ⟨sps, pps, rest, heq, -, -, -⟩
  simp at heq

/-- Claim C6 (counterexample): a failed storage write consumes sequence number 0
without appending a segment, so the session's produced segments start at 1
— not the gapless `0, 1, 2, …` the claim requires. -/
theorem c6_counterexample :
    ((runPM (initialPlaylistManager "live")
        [.frame keyFrameA, .tick false, .tick true]).2.map
      (fun p => p.seg.sequenceNum)) = [1] ∧
    ([1] : List Nat) ≠ List.range 1 :=
  ⟨rfl, by decide⟩

/-- Claim C7 (counterexample): a segment finalized from frames with reliable,
monotone timestamps spanning 4000 ms records duration 2 (the configured
tick interval), while the claim's clamped PTS formula yields 4. -/
theorem c7_counterexample :
    ((runPM (initialPlaylistManager "live")
        [.frame keyFrameA, .frame lateFrameD, .tick true]).2.map
      (fun p => (p.seg.duration, specPtsDuration 2 p.frames))) = [(2, 4)] ∧
    ptsReliable ((runPM (initialPlaylistManager "live")
        [.frame keyFrameA, .frame lateFrameD, .tick true]).2.getD 0 default).frames ∧
    (2 : Nat) ≠ 4 := by
  refine ⟨rfl, ?_, by decide⟩
  unfold ptsReliable
  decide

/-- Claim C8 (counterexample): on a playlist state holding a 5-second segment,
the generated playlist carries `EXT-X-TARGETDURATION:2` (the configured
target), not the ceiling 5 of the maximum window duration. -/
theorem c8_counterexample :
    maxWindowDuration pmWithLongSegment = 5 ∧
    ("#EXT-X-TARGETDURATION:" ++ toString (maxWindowDuration pmWithLongSegment)) ∉
      playlistLines pmWithLongSegment ∧
    "#EXT-X-TARGETDURATION:2" ∈ playlistLines pmWithLongSegment := by
  refine ⟨rfl, ?_, ?_⟩ <;> decide


theorem convertLoop_nil (fuel : Nat) : convertLoop fuel [] = .ok ([], 0) := by
  cases fuel <;> simp [convertLoop]

theorem convertLoop_exact (a b c d : Nat) (nal : List Nat) (fuel : Nat)
    (hsz : be [a, b, c, d] = nal.length) (hnz : nal.length ≠ 0) :
    convertLoop (fuel + 1) ([a, b, c, d] ++ nal) =
      .ok ((if nalTypeOf nal = 7 ∨ nalTypeOf nal = 8 ∨ nalTypeOf nal = 5 then
              ([0, 0, 0, 1] : List Nat) else [0, 0, 1]) ++ nal, 1) := by
  have hlen : ([a, b, c, d] ++ nal).length = 4 + nal.length := by simp; omega
  simp only [convertLoop]
  rw [if_neg (by simp)]
  have htake : ([a, b, c, d] ++ nal).take 4 = [a, b, c, d] := by simp
  have hdrop : ([a, b, c, d] ++ nal).drop 4 = nal := by simp
  simp only [htake, hdrop, hsz]
  rw [if_neg hnz, if_neg (by omega)]
  simp [List.take_length, List.drop_length, convertLoop_nil]

theorem convertLoop_overrun (a b c d : Nat) (nal : List Nat) (fuel : Nat)
    (hsz : nal.length < be [a, b, c, d]) :
    convertLoop (fuel + 1) ([a, b, c, d] ++ nal) =
      .error "invalid NAL size (exceeds buffer)" := by
  simp only [convertLoop]
  rw [if_neg (by simp)]
  have htake : ([a, b, c, d] ++ nal).take 4 = [a, b, c, d] := by simp
  have hdrop : ([a, b, c, d] ++ nal).drop 4 = nal := by simp
  simp only [htake, hdrop]
  rw [if_neg (by omega), if_pos (by omega)]



/-- Claim C5 (amended): the converter accepts a declared NAL length exactly equal to the remaining buffer and rejects any overrun with the invalid-NAL-size error, but on conversion failure `OnVideo` does not drop the frame: it forwards it with the raw AVCC payload. -/
theorem c5_theorem :
    (∀ (a b c d : Nat) (nal : List Nat), be [a, b, c, d] = nal.length →
        nal.length ≠ 0 → ∃ out, convertAVCCToAnnexB ([a, b, c, d] ++ nal) = .ok out) ∧
    (∀ (a b c d : Nat) (nal : List Nat), nal.length < be [a, b, c, d] →
        convertAVCCToAnnexB ([a, b, c, d] ++ nal) =
          .error "invalid NAL size (exceeds buffer)") ∧
    (∀ (h : ConnHandlerState) (ts : Nat) (data avc : List Nat) (isKey : Bool) (e : String),
        parseFLVVideoPacket data = .ok (false, isKey, avc) →
        convertAVCCToAnnexB avc = .error e →
        (onVideo h ts data).2 =
          some { streamKey := h.streamKey, isVideo := true, timestamp := ts,
                 payload := if isKey = true ∧ 0 < h.sps.length ∧ 0 < h.pps.length
                            then prependSPSPPSAnnexB avc h.sps h.pps else avc,
                 codec := "h264", isKeyFrame := isKey }) := by
  refine ⟨?_, ?_, ?_⟩
  · intro a b c d nal hsz hnz
    have hfl : ([a, b, c, d] ++ nal).length = (3 + nal.length) + 1 := by simp; omega
    unfold convertAVCCToAnnexB
    rw [if_neg (by simp), hfl, convertLoop_exact a b c d nal (3 + nal.length) hsz hnz]
    simp
  · intro a b c d nal hsz
    have hfl : ([a, b, c, d] ++ nal).length = (3 + nal.length) + 1 := by simp; omega
    unfold convertAVCCToAnnexB
    rw [if_neg (by simp), hfl, convertLoop_overrun a b c d nal (3 + nal.length) hsz]
  · intro h ts data avc isKey e hp hc
    have hne : ¬ data.length = 0 := by
      intro h0
      rw [show parseFLVVideoPacket data = .error "video packet too short" from by
        simp [parseFLVVideoPacket, h0]] at hp
      simp at hp
    unfold onVideo
    rw [if_neg hne, hp]
    simp only [hc, Bool.false_eq_true, if_false]
    cases isKey with
    | false => simp
    | true =>
      by_cases hsp : h.sps.length > 0 ∧ h.pps.length > 0
      · simp [hsp, hsp.1, hsp.2]
      · rw [if_neg hsp]
        simp [hsp]



/-- Claim C5 (witness): the amended behaviour at concrete inputs. -/
theorem c5_witness :
    (∃ out, convertAVCCToAnnexB ([0, 0, 0, 2] ++ [65, 7]) = .ok out) ∧
    convertAVCCToAnnexB ([0, 0, 0, 3] ++ [65, 7]) =
      .error "invalid NAL size (exceeds buffer)" ∧
    (onVideo initialConnState 0 [39, 1, 0, 0, 0, 0, 0, 0, 9, 65]).2 =
      some { streamKey := "live", isVideo := true, timestamp := 0,
             payload := [0, 0, 0, 9, 65], codec := "h264", isKeyFrame := false } := by
  refine ⟨c5_theorem.1 0 0 0 2 [65, 7] (by decide) (by decide),
          c5_theorem.2.1 0 0 0 3 [65, 7] (by decide), ?_⟩
  have h := c5_theorem.2.2 initialConnState 0 [39, 1, 0, 0, 0, 0, 0, 0, 9, 65]
      [0, 0, 0, 9, 65] false "invalid NAL size (exceeds buffer)" rfl rfl
  simpa [initialConnState] using h

/-- Claim C4 (amended): parsing fails with a malformed-config error on a
truncated input — any input shorter than the 11-byte minimum is rejected,
and a declared SPS length overrunning the remaining bytes is rejected (shown
at a witness input) — but `lengthSizeMinusOne+1` is never validated against
{1,2,4}: every successful parse stores `(byte4 & 3) + 1`, so a declared
size of 3 is accepted. -/
theorem c4_theorem :
    (∀ d : List Nat, d.length < 11 →
        ∃ e, parseAVCDecoderConfigurationRecord d = .error e) ∧
    (∀ (d : List Nat) (r : AVCDecoderConfigurationRecord),
        parseAVCDecoderConfigurationRecord d = .ok r →
        r.nalUnitLength = (d.getD 4 0 % 256 &&& 3) + 1) ∧
    parseAVCDecoderConfigurationRecord [1, 66, 0, 31, 3, 1, 0, 10, 1, 2, 3] =
      .error "short read" := by
  refine ⟨?_, ?_, rfl⟩
  · intro d hlen
    refine ⟨"data too short for AVCDecoderConfigurationRecord", ?_⟩
    simp [parseAVCDecoderConfigurationRecord, hlen]
  · intro d r h
    by_cases hlen : d.length < 11
    · simp [parseAVCDecoderConfigurationRecord, hlen] at h
    · rcases d with _ | ⟨b0, _ | ⟨b1, _ | ⟨b2, _ | ⟨b3, _ | ⟨b4, _ | ⟨b5, l6⟩⟩⟩⟩⟩⟩ <;>
        try (simp only [List.length_cons, List.length_nil] at hlen; omega)
      simp only [parseAVCDecoderConfigurationRecord, readU8] at h
      rw [if_neg hlen] at h
      simp only [bind, Except.bind] at h
      cases hsp : readParamSets (b5 % 256 &&& 31) l6 with
      | error e => rw [hsp] at h; simp at h
      | ok pr =>
        rw [hsp] at h
        rcases pr with ⟨sl, l7⟩
        cases l7 with
        | nil => simp at h
        | cons b6 l8 =>
          cases hpp : readParamSets (b6 % 256) l8 with
          | error e => simp only [readU8, hpp] at h; simp at h
          | ok pr2 =>
            rcases pr2 with ⟨pl, l9⟩
            simp only [readU8, hpp] at h
            simp at h
            rw [← h]
            simp [List.getD]



/-- Claim C4 (witness): the amended behaviour at a 3-byte input and at a record declaring NAL-length-size 3. -/
theorem c4_witness :
    (([1, 2, 3] : List Nat).length < 11) ∧
    AVCDecoderConfigurationRecord.nalUnitLength
        { configurationVersion := 1, avcProfileIndication := 66, profileCompatibility := 0,
          avcLevelIndication := 31, nalUnitLength := 3, sps := [], pps := [] } =
      (([1, 66, 0, 31, 6, 0, 0, 0, 0, 0, 0] : List Nat).getD 4 0 % 256 &&& 3) + 1 := by
  refine ⟨by decide, ?_⟩
  exact c4_theorem.2.1 [1, 66, 0, 31, 6, 0, 0, 0, 0, 0, 0] _ rfl

/-- Helper: finalization does nothing without frames or without a keyframe. -/
theorem finalizeSegment_keep (pm : PlaylistManager) (w : Bool)
    (hc : (pm.currentSegment.frames.length = 0 || !pm.currentSegment.hasKeyFrame) = true) :
    finalizeSegment pm w = (pm, none) := by
  unfold finalizeSegment
  rw [if_pos hc]

/-- Helper: a finalization whose storage write fails consumes the sequence number and keeps the buffer. -/
theorem finalizeSegment_fail (pm : PlaylistManager)
    (hc : ¬ (pm.currentSegment.frames.length = 0 || !pm.currentSegment.hasKeyFrame) = true) :
    finalizeSegment pm false = ({ pm with sequenceNumber := pm.sequenceNumber + 1 }, none) := by
  unfold finalizeSegment
  rw [if_neg hc]
  rfl

/-- Helper: a successful finalization appends the produced segment, slides the window, sets the init flag and resets the buffer. -/
theorem finalizeSegment_produce (pm : PlaylistManager)
    (hc : ¬ (pm.currentSegment.frames.length = 0 || !pm.currentSegment.hasKeyFrame) = true) :
    finalizeSegment pm true =
      ({ pm with sequenceNumber := pm.sequenceNumber + 1,
                 segments := if (pm.segments ++ [finalizedSeg pm]).length > pm.maxSegments
                             then (pm.segments ++ [finalizedSeg pm]).drop 1
                             else pm.segments ++ [finalizedSeg pm],
                 hasInit := true,
                 currentSegment := newSegmentBuffer },
       some { seg := finalizedSeg pm, data := framesToSegmentData pm.currentSegment.frames,
              frames := pm.currentSegment.frames }) := by
  unfold finalizeSegment
  rw [if_neg hc]
  rfl

/-- Helper: when every tick write succeeds, the produced sequence numbers are consecutive from the starting counter. -/
theorem runPM_map_seq (events : List SegEvent) :
    ∀ pm : PlaylistManager, (∀ e ∈ events, writeSucceeds e) →
      ((runPM pm events).2.map (fun p => p.seg.sequenceNum)) =
        List.range' pm.sequenceNumber (runPM pm events).2.length := by
  induction events with
  | nil => intro pm _; simp [runPM]
  | cons e es ih =>
    intro pm h
    have hes : ∀ x ∈ es, writeSucceeds x := fun x hx => h x (by simp [hx])
    cases e with
    | frame f =>
      simp only [runPM, stepPM, Option.toList_none, List.nil_append]
      exact ih (addFrame pm f) hes
    | tick w =>
      have hw : w = true := h (.tick w) (by simp)
      subst hw
      by_cases hc : (pm.currentSegment.frames.length = 0 ||
          !pm.currentSegment.hasKeyFrame) = true
      · simp only [runPM, stepPM, finalizeSegment_keep pm true hc,
                   Option.toList_none, List.nil_append]
        exact ih pm hes
      · simp only [runPM, stepPM, finalizeSegment_produce pm hc, Option.toList_some,
                   List.singleton_append, List.map_cons, List.length_cons]
        rw [ih _ hes]
        rfl



/-- Claim C6 (amended): when every storage write succeeds, the sequence numbers of the segments produced in a session are exactly `0, 1, 2, ...` with no gap and no duplicate; a failed write, however, consumes a number (see the counterexample). -/
theorem c6_theorem (streamKey : String) (events : List SegEvent)
    (h : ∀ e ∈ events, writeSucceeds e) :
    ((runPM (initialPlaylistManager streamKey) events).2.map (fun p => p.seg.sequenceNum)) =
      List.range (runPM (initialPlaylistManager streamKey) events).2.length := by
  rw [List.range_eq_range' (runPM (initialPlaylistManager streamKey) events).2.length]
  exact runPM_map_seq events (initialPlaylistManager streamKey) h

/-- Claim C6 (witness): the amended behaviour on a two-segment schedule whose writes all succeed. -/
theorem c6_witness :
    ((runPM (initialPlaylistManager "live")
        [.frame keyFrameA, .tick true, .frame keyFrameC, .tick true]).2.map
      (fun p => p.seg.sequenceNum)) =
      List.range (runPM (initialPlaylistManager "live")
        [.frame keyFrameA, .tick true, .frame keyFrameC, .tick true]).2.length := by
  apply c6_theorem
  intro e he
  simp only [List.mem_cons, List.not_mem_nil, or_false] at he
  rcases he with rfl | rfl | rfl | rfl <;> simp [writeSucceeds]

/-- Helper: every produced segment's recorded duration equals the configured segment duration. -/
theorem runPM_duration (events : List SegEvent) :
    ∀ pm : PlaylistManager, ∀ p ∈ (runPM pm events).2,
      p.seg.duration = pm.segmentDurationSec := by
  induction events with
  | nil => intro pm p hp; simp [runPM] at hp
  | cons e es ih =>
    intro pm p hp
    cases e with
    | frame f =>
      simp only [runPM, stepPM, Option.toList_none, List.nil_append] at hp
      exact ih (addFrame pm f) p hp
    | tick w =>
      by_cases hc : (pm.currentSegment.frames.length = 0 ||
          !pm.currentSegment.hasKeyFrame) = true
      · simp only [runPM, stepPM, finalizeSegment_keep pm w hc,
                   Option.toList_none, List.nil_append] at hp
        exact ih pm p hp
      · cases w with
        | false =>
          simp only [runPM, stepPM, finalizeSegment_fail pm hc,
                     Option.toList_none, List.nil_append] at hp
          have hd := ih _ p hp
          exact hd
        | true =>
          simp only [runPM, stepPM, finalizeSegment_produce pm hc, Option.toList_some,
                     List.singleton_append, List.mem_cons] at hp
          rcases hp with rfl | hp
          · rfl
          · have hd := ih _ p hp
            exact hd

/-- Claim C7 (amended): every produced segment's recorded duration equals the configured tick interval (2 s), regardless of frame timestamps; it is therefore never negative (durations are naturals) and never zero. -/
theorem c7_theorem (streamKey : String) (events : List SegEvent) :
    ∀ p ∈ (runPM (initialPlaylistManager streamKey) events).2,
      p.seg.duration = 2 ∧ p.seg.duration ≠ 0 := by
  intro p hp
  have h := runPM_duration events (initialPlaylistManager streamKey) p hp
  have h2 : p.seg.duration = 2 := by simpa [initialPlaylistManager] using h
  exact ⟨h2, by rw [h2]; decide⟩

/-- Claim C7 (witness): the amended behaviour at a concrete one-segment schedule. -/
theorem c7_witness :
    (((runPM (initialPlaylistManager "live") [.frame keyFrameA, .tick true]).2.getD 0
        default).seg.duration = 2 ∧
     ((runPM (initialPlaylistManager "live") [.frame keyFrameA, .tick true]).2.getD 0
        default).seg.duration ≠ 0) :=
  c7_theorem "live" [.frame keyFrameA, .tick true] _ (by decide)



/-- Helper: `addFrame` preserves the honesty of the keyframe flag. -/
theorem bufferInv_addFrame (pm : PlaylistManager) (f : Frame) (h : bufferInv pm) :
    bufferInv (addFrame pm f) := by
  intro hk
  simp only [addFrame] at hk ⊢
  cases ho : pm.currentSegment.hasKeyFrame with
  | true =>
    obtain ⟨g, hg, hgp⟩ := h ho
    exact ⟨g, by simp [hg], hgp⟩
  | false =>
    rw [ho, Bool.false_or] at hk
    simp only [Bool.and_eq_true] at hk
    exact ⟨f, by simp, hk.1, hk.2⟩

/-- Helper: from a state with an honest keyframe flag, every produced segment is the concatenation of its frames and contains a video keyframe. -/
theorem runPM_produced (events : List SegEvent) :
    ∀ pm : PlaylistManager, bufferInv pm →
      ∀ p ∈ (runPM pm events).2,
        p.data = framesToSegmentData p.frames ∧
        ∃ f ∈ p.frames, f.isVideo = true ∧ f.isKeyFrame = true := by
  induction events with
  | nil => intro pm _ p hp; simp [runPM] at hp
  | cons e es ih =>
    intro pm hinv p hp
    cases e with
    | frame f =>
      simp only [runPM, stepPM, Option.toList_none, List.nil_append] at hp
      exact ih (addFrame pm f) (bufferInv_addFrame pm f hinv) p hp
    | tick w =>
      by_cases hc : (pm.currentSegment.frames.length = 0 ||
          !pm.currentSegment.hasKeyFrame) = true
      · simp only [runPM, stepPM, finalizeSegment_keep pm w hc,
                   Option.toList_none, List.nil_append] at hp
        exact ih pm hinv p hp
      · have hcf : (pm.currentSegment.frames.length = 0 ||
            !pm.currentSegment.hasKeyFrame) = false := Bool.eq_false_iff.mpr hc
        have hkey : pm.currentSegment.hasKeyFrame = true := by
          have h2 := (Bool.or_eq_false_iff.mp hcf).2
          simpa using h2
        cases w with
        | false =>
          simp only [runPM, stepPM, finalizeSegment_fail pm hc,
                     Option.toList_none, List.nil_append] at hp
          have hd := ih { pm with sequenceNumber := pm.sequenceNumber + 1 }
            (fun hk => hinv hk) p hp
          exact hd
        | true =>
          simp only [runPM, stepPM, finalizeSegment_produce pm hc, Option.toList_some,
                     List.singleton_append, List.mem_cons] at hp
          rcases hp with rfl | hp
          · exact ⟨rfl, hinv hkey⟩
          · have hd := ih { pm with sequenceNumber := pm.sequenceNumber + 1, segments := if (pm.segments ++ [finalizedSeg pm]).length > pm.maxSegments then (pm.segments ++ [finalizedSeg pm]).drop 1 else pm.segments ++ [finalizedSeg pm], hasInit := true, currentSegment := newSegmentBuffer } (fun hk => by simp [newSegmentBuffer] at hk) p hp
            exact hd

/-- Claim C1 (amended): the segmenter finalizes only buffers containing a video keyframe — a tick on a keyframe-less buffer changes nothing and produces nothing — and every produced segment's bytes are the concatenation of its buffered frame payloads, so the segment contains a keyframe somewhere but need not begin with SPS+PPS+IDR (see the counterexample). -/
theorem c1_theorem (pm : PlaylistManager) (events : List SegEvent) (hinv : bufferInv pm) :
    (∀ p ∈ (runPM pm events).2,
        p.data = framesToSegmentData p.frames ∧
        ∃ f ∈ p.frames, f.isVideo = true ∧ f.isKeyFrame = true) ∧
    (∀ writeOk : Bool, pm.currentSegment.hasKeyFrame = false →
        stepPM pm (.tick writeOk) = (pm, none)) := by
  refine ⟨runPM_produced events pm hinv, ?_⟩
  intro w hk
  have hc : (pm.currentSegment.frames.length = 0 || !pm.currentSegment.hasKeyFrame) = true := by
    rw [hk]
    simp
  exact finalizeSegment_keep pm w hc

/-- Claim C1 (witness): the amended behaviour from the initial state with a concrete schedule. -/
theorem c1_witness :
    (((runPM (initialPlaylistManager "live") [.frame keyFrameA, .tick true]).2.getD 0
        default).data =
      framesToSegmentData (((runPM (initialPlaylistManager "live")
        [.frame keyFrameA, .tick true]).2.getD 0 default).frames)) ∧
    stepPM (initialPlaylistManager "live") (.tick true) = (initialPlaylistManager "live", none) := by
  constructor
  · exact ((c1_theorem (initialPlaylistManager "live") [.frame keyFrameA, .tick true]
      (fun hk => by simp [initialPlaylistManager, newSegmentBuffer] at hk)).1 _ (by decide)).1
  · exact (c1_theorem (initialPlaylistManager "live") []
      (fun hk => by simp [initialPlaylistManager, newSegmentBuffer] at hk)).2 true rfl



/-- Helper: the Go conversion loop agrees with the spec's conversion at NAL-length-size 4 whenever every visited NAL unit has a key type (SPS/PPS/IDR), the case in which both choose the 4-byte start code. -/
theorem convertLoop_spec_agree : ∀ (fuel : Nat) (rest : List Nat),
    allKeyTypeNals fuel rest = true →
    (convertLoop fuel rest).toOption.map Prod.fst = (specConvertLoop 4 fuel rest).toOption := by
  intro fuel
  induction fuel with
  | zero => intro rest _; rfl
  | succ fuel ih =>
    intro rest h
    simp only [allKeyTypeNals] at h
    simp only [convertLoop, specConvertLoop]
    by_cases h4 : rest.length < 4
    · rw [if_pos h4, if_pos h4]
      rfl
    · rw [if_neg h4] at h
      rw [if_neg h4, if_neg h4]
      by_cases hz : be (rest.take 4) = 0
      · rw [if_pos hz] at h
        rw [if_pos hz, if_pos hz]
        exact ih _ h
      · rw [if_neg hz] at h
        rw [if_neg hz, if_neg hz]
        by_cases hov : (rest.drop 4).length < be (rest.take 4)
        · rw [if_pos hov, if_pos hov]
          rfl
        · rw [if_neg hov] at h
          rw [if_neg hov, if_neg hov]
          simp only [Bool.and_eq_true, decide_eq_true_eq] at h
          obtain ⟨hty, hrec⟩ := h
          rw [if_pos hty]
          have hihr := ih _ hrec
          cases hcv : convertLoop fuel ((rest.drop 4).drop (be (rest.take 4))) with
          | error e =>
            rw [hcv] at hihr
            cases hsp : specConvertLoop 4 fuel ((rest.drop 4).drop (be (rest.take 4))) with
            | error e2 => rfl
            | ok o => rw [hsp] at hihr; simp [Except.toOption] at hihr
          | ok pr =>
            rcases pr with ⟨out, c⟩
            rw [hcv] at hihr
            cases hsp : specConvertLoop 4 fuel ((rest.drop 4).drop (be (rest.take 4))) with
            | error e2 => rw [hsp] at hihr; simp [Except.toOption] at hihr
            | ok o =>
              rw [hsp] at hihr
              simp only [Except.toOption, Option.map_some'] at hihr ⊢
              rw [Option.some.injEq] at hihr
              rw [hihr]



/-- Claim C3 (amended): the converter ignores the recorded NAL-length-size (`ConvertAVCCFrameToAnnexB` always behaves as `ConvertAVCCToAnnexB` with 4-byte lengths), emits a 4-byte start code only before SPS/PPS/IDR NAL units (3-byte otherwise), and agrees with the spec's converter when the length size is 4 and every NAL unit is SPS/PPS/IDR — in particular on the spec's S2 example. -/
theorem c3_theorem :
    (∀ (f : List Nat) (L : Nat), convertAVCCFrameToAnnexB f L = convertAVCCToAnnexB f) ∧
    (∀ (fuel : Nat) (rest : List Nat), allKeyTypeNals fuel rest = true →
        (convertLoop fuel rest).toOption.map Prod.fst = (specConvertLoop 4 fuel rest).toOption) ∧
    convertAVCCToAnnexB
        [0, 0, 0, 5, 103, 66, 192, 31, 138, 0, 0, 0, 4, 104, 206, 60, 128] =
      .ok [0, 0, 0, 1, 103, 66, 192, 31, 138, 0, 0, 0, 1, 104, 206, 60, 128] := by
  refine ⟨?_, convertLoop_spec_agree, rfl⟩
  intro f L
  simp [convertAVCCFrameToAnnexB]

/-- Claim C3 (witness): the amended behaviour at concrete inputs. -/
theorem c3_witness :
    convertAVCCFrameToAnnexB [0, 0, 0, 2, 103, 7] 1 =
      convertAVCCToAnnexB [0, 0, 0, 2, 103, 7] ∧
    allKeyTypeNals 17
        [0, 0, 0, 5, 103, 66, 192, 31, 138, 0, 0, 0, 4, 104, 206, 60, 128] = true ∧
    (convertLoop 17
        [0, 0, 0, 5, 103, 66, 192, 31, 138, 0, 0, 0, 4, 104, 206, 60, 128]).toOption.map
        Prod.fst =
      (specConvertLoop 4 17
        [0, 0, 0, 5, 103, 66, 192, 31, 138, 0, 0, 0, 4, 104, 206, 60, 128]).toOption :=
  ⟨c3_theorem.1 [0, 0, 0, 2, 103, 7] 1, rfl,
   c3_theorem.2.1 17 [0, 0, 0, 5, 103, 66, 192, 31, 138, 0, 0, 0, 4, 104, 206, 60, 128] rfl⟩

/-- Helper: a publishing name without `?` yields no query split. -/
theorem splitAtQuestion_of_not_mem (name : List Char) (h : '?' ∉ name) :
    splitAtQuestion name = none := by
  induction name with
  | nil => rfl
  | cons c cs ih =>
    simp only [List.mem_cons, not_or] at h
    simp only [splitAtQuestion]
    rw [if_neg (fun hq => h.1 hq.symm), ih h.2]

/-- Helper: a registry assignment is visible to a subsequent lookup of the same key. -/
theorem lookupStream_setStream (r : Registry) (k : String) (s : StreamState) :
    lookupStream (setStream r k s) k = some s := by
  induction r with
  | nil => simp [setStream, lookupStream]
  | cons kv rest ih =>
    rcases kv with ⟨k1, s1⟩
    by_cases hk : k1 = k
    · subst hk
      simp [setStream, lookupStream]
    · simp only [setStream, lookupStream]
      rw [if_neg hk, lookupStream]
      rw [if_neg hk]
      exact ih

/-- Claim C10: a publishing name containing no `?` parses to an empty token, so `OnPublish` never consults the token validator (its result is identical for any validator), admits the publisher, creates the stream under the entire publishing name and transitions it to Live. -/
theorem c10_theorem (name : List Char) (reg : Registry)
    (va vb : String → String → Bool)
    (hq : '?' ∉ name) (hlive : lookupStream reg (String.mk name) ≠ some .live) :
    parseStreamKeyAndToken name = (name, []) ∧
    onPublish reg va name = onPublish reg vb name ∧
    (onPublish reg va name).tokenChecked = false ∧
    (onPublish reg va name).outcome =
      .ok (setStream (setStream reg (String.mk name) .connecting) (String.mk name) .live) ∧
    lookupStream (setStream (setStream reg (String.mk name) .connecting)
      (String.mk name) .live) (String.mk name) = some .live := by
  have hparse : parseStreamKeyAndToken name = (name, []) := by
    simp [parseStreamKeyAndToken, splitAtQuestion_of_not_mem name hq]
  have hcreate : createStream reg (String.mk name) =
      .ok (setStream reg (String.mk name) .connecting) := by
    unfold createStream
    cases hl : lookupStream reg (String.mk name) with
    | none => rfl
    | some s => cases s <;> simp_all
  refine ⟨hparse, ?_, ?_, ?_, lookupStream_setStream _ _ _⟩
  · simp [onPublish, hparse, hcreate]
  · simp [onPublish, hparse, hcreate]
  · simp [onPublish, hparse, hcreate]

/-- Claim C10 (witness): publishing `mystream` without a token on an empty registry. -/
theorem c10_witness :
    ('?' ∉ "mystream".data) ∧
    parseStreamKeyAndToken "mystream".data = ("mystream".data, []) ∧
    onPublish [] (fun _ _ => true) "mystream".data =
      onPublish [] (fun _ _ => false) "mystream".data ∧
    (onPublish [] (fun _ _ => true) "mystream".data).tokenChecked = false ∧
    (onPublish [] (fun _ _ => true) "mystream".data).outcome =
      .ok (setStream (setStream [] (String.mk "mystream".data) .connecting)
        (String.mk "mystream".data) .live) := by
  have h := c10_theorem "mystream".data [] (fun _ _ => true) (fun _ _ => false)
    (by decide) (by simp [lookupStream])
  exact ⟨by decide, h.1, h.2.1, h.2.2.1, h.2.2.2.1⟩



/-- Helper: appending to a string whose characters are not a prefix of `t` cannot produce `t`. -/
theorem strAppend_ne (s x t : String) (hpre : ¬ s.data <+: t.data) : s ++ x ≠ t := by
  intro he
  exact hpre ⟨x.data, by rw [← String.data_append, he]⟩

/-- Helper: an infix of a list is an infix of any left-extension. -/
theorem isInfix_append_left {α : Type} {l l₂ : List α} (l₁ : List α) (h : l <:+: l₂) :
    l <:+: l₁ ++ l₂ := by
  obtain ⟨s, t, hst⟩ := h
  exact ⟨l₁ ++ s, t, by rw [← hst]; simp [List.append_assoc]⟩

/-- Helper: the image of a member is an infix of the flat map. -/
theorem infix_of_mem_flatMap {α β : Type} (f : α → List β) (l : List α) :
    ∀ a ∈ l, f a <:+: l.flatMap f := by
  induction l with
  | nil => intro a ha; cases ha
  | cons x xs ih =>
    intro a ha
    rcases List.mem_cons.mp ha with rfl | hm
    · exact ⟨[], xs.flatMap f, by simp⟩
    · obtain ⟨s, t, hst⟩ := ih a hm
      exact ⟨f x ++ s, t, by rw [List.flatMap_cons, ← hst]; simp [List.append_assoc]⟩

/-- Helper: the maximum of a nonempty constant list is that constant. -/
theorem foldr_max_const (t : Nat) : ∀ l : List Nat, l ≠ [] → (∀ x ∈ l, x = t) →
    l.foldr max 0 = t := by
  intro l
  induction l with
  | nil => intro h _; exact absurd rfl h
  | cons x xs ih =>
    intro _ hall
    cases xs with
    | nil => simp [hall x (by simp)]
    | cons y ys =>
      have hx := hall x (by simp)
      have hxs := ih (by simp) (fun z hz => hall z (by simp [hz]))
      rw [List.foldr_cons, hxs, hx, Nat.max_self]

/-- Helper: characterization of the lines occurring in a generated playlist. -/
theorem mem_playlistLines (pm : PlaylistManager) (l : String) :
    l ∈ playlistLines pm ↔
      l = "#EXTM3U" ∨ l = "#EXT-X-VERSION:7" ∨
      l = "#EXT-X-TARGETDURATION:" ++ toString pm.targetDuration ∨
      l = mediaSequenceLine pm ∨
      (pm.hasInit = true ∧ l = "#EXT-X-MAP:URI=\"init.mp4\"") ∨
      ∃ seg ∈ pm.segments, l = extinfLine seg ∨ l = uriLine seg := by
  cases hin : pm.hasInit <;>
    simp [playlistLines, hin, List.mem_flatMap, or_assoc]



/-- Claim C8 (amended): the generated playlist opens with the HLS header, the version, and `EXT-X-TARGETDURATION` equal to the *configured* target duration (not a computed ceiling — see the counterexample — though the two coincide whenever every window segment's duration equals the target and the window is nonempty); `EXT-X-MEDIA-SEQUENCE` is the oldest segment's sequence number or 0 when empty; an `EXT-X-MAP` line appears exactly when the init segment exists; each segment contributes an adjacent `EXTINF` line with three decimal places followed by its URI; and `EXT-X-ENDLIST` never appears. -/
theorem c8_theorem (pm : PlaylistManager) :
    (playlistLines pm).take 3 =
      ["#EXTM3U", "#EXT-X-VERSION:7",
       "#EXT-X-TARGETDURATION:" ++ toString pm.targetDuration] ∧
    mediaSequenceLine pm ∈ playlistLines pm ∧
    (pm.segments = [] → mediaSequenceLine pm = "#EXT-X-MEDIA-SEQUENCE:0") ∧
    (∀ s rest, pm.segments = s :: rest →
        mediaSequenceLine pm = "#EXT-X-MEDIA-SEQUENCE:" ++ toString s.sequenceNum) ∧
    ("#EXT-X-MAP:URI=\"init.mp4\"" ∈ playlistLines pm ↔ pm.hasInit = true) ∧
    (∀ seg ∈ pm.segments, [extinfLine seg, uriLine seg] <:+: playlistLines pm) ∧
    "#EXT-X-ENDLIST" ∉ playlistLines pm ∧
    ((∀ seg ∈ pm.segments, seg.duration = pm.targetDuration) → pm.segments ≠ [] →
        pm.targetDuration = maxWindowDuration pm) := by
  refine ⟨rfl, by simp [playlistLines], ?_, ?_, ?_, ?_, ?_, ?_⟩
  · intro h
    simp [mediaSequenceLine, h]
  · intro s rest h
    simp [mediaSequenceLine, h]
  · constructor
    · intro hm
      rcases (mem_playlistLines pm _).mp hm with h | h | h | h | ⟨hi, -⟩ | ⟨seg, -, h | h⟩
      · exact absurd h (by decide)
      · exact absurd h (by decide)
      · exact absurd h.symm (strAppend_ne _ _ _ (by decide))
      · cases hsegs : pm.segments with
        | nil =>
          rw [show mediaSequenceLine pm = "#EXT-X-MEDIA-SEQUENCE:0" from by
            simp [mediaSequenceLine, hsegs]] at h
          exact absurd h (by decide)
        | cons s rest =>
          rw [show mediaSequenceLine pm =
              "#EXT-X-MEDIA-SEQUENCE:" ++ toString s.sequenceNum from by
            simp [mediaSequenceLine, hsegs]] at h
          exact absurd h.symm (strAppend_ne _ _ _ (by decide))
      · exact hi
      · simp only [extinfLine, fmtDuration3] at h
        rw [String.append_assoc, String.append_assoc] at h
        exact absurd h.symm (strAppend_ne _ _ _ (by decide))
      · simp only [uriLine] at h
        rw [String.append_assoc] at h
        exact absurd h.symm (strAppend_ne _ _ _ (by decide))
    · intro hi
      exact (mem_playlistLines pm _).mpr
        (Or.inr (Or.inr (Or.inr (Or.inr (Or.inl ⟨hi, rfl⟩)))))
  · intro seg hseg
    unfold playlistLines
    exact isInfix_append_left _
      (infix_of_mem_flatMap (fun seg => [extinfLine seg, uriLine seg]) pm.segments seg hseg)
  · intro hm
    rcases (mem_playlistLines pm _).mp hm with h | h | h | h | ⟨-, h⟩ | ⟨seg, -, h | h⟩
    · exact absurd h (by decide)
    · exact absurd h (by decide)
    · exact absurd h.symm (strAppend_ne _ _ _ (by decide))
    · cases hsegs : pm.segments with
      | nil =>
        rw [show mediaSequenceLine pm = "#EXT-X-MEDIA-SEQUENCE:0" from by
          simp [mediaSequenceLine, hsegs]] at h
        exact absurd h (by decide)
      | cons s rest =>
        rw [show mediaSequenceLine pm =
            "#EXT-X-MEDIA-SEQUENCE:" ++ toString s.sequenceNum from by
          simp [mediaSequenceLine, hsegs]] at h
        exact absurd h.symm (strAppend_ne _ _ _ (by decide))
    · exact absurd h (by decide)
    · simp only [extinfLine, fmtDuration3] at h
      rw [String.append_assoc, String.append_assoc] at h
      exact absurd h.symm (strAppend_ne _ _ _ (by decide))
    · simp only [uriLine] at h
      rw [String.append_assoc] at h
      exact absurd h.symm (strAppend_ne _ _ _ (by decide))
  · intro hall hne
    cases hsegs : pm.segments with
    | nil => exact absurd hsegs hne
    | cons s rest =>
      unfold maxWindowDuration
      rw [hsegs]
      refine (foldr_max_const pm.targetDuration ((s :: rest).map Segment.duration)
        (by simp) ?_).symm
      intro x hx
      obtain ⟨sg, hsg, rfl⟩ := List.mem_map.mp hx
      exact hall sg (by rw [hsegs]; exact hsg)

/-- Claim C8 (witness): the amended behaviour at concrete playlist states. -/
theorem c8_witness :
    (playlistLines pmWithLongSegment).take 3 =
      ["#EXTM3U", "#EXT-X-VERSION:7",
       "#EXT-X-TARGETDURATION:" ++ toString pmWithLongSegment.targetDuration] ∧
    ("#EXT-X-MAP:URI=\"init.mp4\"" ∈ playlistLines pmWithLongSegment ↔
      pmWithLongSegment.hasInit = true) ∧
    "#EXT-X-ENDLIST" ∉ playlistLines pmWithLongSegment ∧
    mediaSequenceLine (initialPlaylistManager "live") = "#EXT-X-MEDIA-SEQUENCE:0" := by
  refine ⟨(c8_theorem pmWithLongSegment).1, (c8_theorem pmWithLongSegment).2.2.2.2.1,
          (c8_theorem pmWithLongSegment).2.2.2.2.2.2.1, ?_⟩
  exact (c8_theorem (initialPlaylistManager "live")).2.2.1 rfl

end RapidRTMP
